import Mathlib

/-!
Verification of the delay-classifier rule engine of `src/app.py`
(class `DelayedMaidsApp`): priority classification, delay flagging,
task forward-fill, threshold configuration updates, per-cell table
edits, and the filter/aggregate display pipeline.

Numbers that the source handles as Python floats (delay hours,
threshold hours) are embedded as rationals.  A pandas `NaN` cell, a
`None`, or an unparseable value is embedded as `Option.none`.
Timestamps (`Last Updated`, the date columns) carry no classification
logic and are not part of the row embedding.
-/

namespace DelayedMaids

/-! ## String utilities

The source relies on Python `str.strip`, `float(...)` /
`pd.to_numeric(..., errors := coerce)` and `sorted(...)` over strings.
These are embedded with executable definitions so concrete inputs
evaluate inside the kernel.
-/

/-- Whitespace test used by the embedded `str.strip`. -/
def wsChar (c : Char) : Bool := c.isWhitespace

/-- Strip leading and trailing whitespace from a character list. -/
def trimChars (l : List Char) : List Char :=
  ((l.dropWhile wsChar).reverse.dropWhile wsChar).reverse

/-- Embedded Python `str.strip`. -/
def strTrim (s : String) : String := String.mk (trimChars s.data)

/-- Lexicographic comparison of character lists by code point; embeds the
string order used by Python `sorted(...)`. -/
def charListLe : List Char → List Char → Bool
  | [], _ => true
  | _ :: _, [] => false
  | a :: as, b :: bs =>
    if a.toNat < b.toNat then true
    else if b.toNat < a.toNat then false
    else charListLe as bs

/-- String order used for the ascending sort of filter-option values. -/
def strLe (a b : String) : Bool := charListLe a.data b.data

/-- Ascending sort of string values, embedding Python `sorted(...)`. -/
def sortAsc (l : List String) : List String :=
  List.insertionSort (fun a b => strLe a b = true) l

/-- Parse a nonempty all-digit character list as a natural number. -/
def parseNatDigits (s : List Char) : Option Nat :=
  if s ≠ [] ∧ s.all Char.isDigit then
    some (s.foldl (fun n c => n * 10 + (c.toNat - 48)) 0)
  else none

/-- Embedded numeric conversion: models `float(...)` and
`pd.to_numeric(..., errors := coerce)` on plain decimal literals
(optional sign, digits, optional fractional part).  Any input outside
this grammar is treated as unparseable and maps to `none`, matching the
fail-soft conversion in the source. -/
def parseRat (s : String) : Option ℚ :=
  let cs := trimChars s.data
  let (neg, body) := match cs with
    | '-' :: rest => (true, rest)
    | _ => (false, cs)
  let intPart := body.takeWhile (fun c => c ≠ '.')
  let rest := body.dropWhile (fun c => c ≠ '.')
  match rest with
  | [] => (parseNatDigits intPart).map (fun n => if neg then -(n : ℚ) else (n : ℚ))
  | _ :: frac =>
    if frac.contains '.' then none
    else
      match parseNatDigits intPart, parseNatDigits frac with
      | some i, some f =>
        some ((if neg then -1 else 1) * ((i : ℚ) + (f : ℚ) / ((10 : ℚ) ^ frac.length)))
      | _, _ => none

/-- A `NaN` cell stays absent; a string cell goes through `parseRat`.
Embeds `pd.to_numeric(column, errors := coerce)` cell-wise. -/
def toNumeric (cell : Option String) : Option ℚ := cell.bind parseRat

/-! ## Threshold configuration and classification

Source: `TASK_THRESHOLDS` (app.py lines 29-50), `calculate_priority`
(lines 92-104) and the `Is Delayed` lambda (lines 145-150 and 744-749).
-/

/-- Priority tier assigned to a row. -/
inductive Priority
  | Low
  | Medium
  | High
deriving DecidableEq, Repr

/-- The threshold configuration `self.task_thresholds`: a task-name to
hours dictionary.  `none` means the task is not a key of the dictionary. -/
def Cfg : Type := String → Option ℚ

/-- The `TASK_THRESHOLDS` constant of app.py lines 29-50. -/
def TASK_THRESHOLDS : List (String × ℚ) :=
  [("Apply for entry Visa", 24),
   ("Apply for Work Permit - Stage 1", 10000),
   ("Check Entry Visa Immigration Approval", 24),
   ("Check ID application type", 24),
   ("Collect Documents (with missing documents)", 10000),
   ("Fill Information", 10000),
   ("Fix the problem of entry visa (MV)", 48),
   ("Modify EID Application", 240),
   ("Pending medical certificate approval from DHA", 72),
   ("Prepare EID Application (Receival Automated)", 48),
   ("Prepare EID application (Receival Automated)", 48),
   ("Prepare EID Application for Modification", 48),
   ("Prepare folder containing E-visa medical application and EID", 72),
   ("Receipt of EID Card (Card is not printed)", 168),
   ("Receipt of EID Card (Card is printed)", 168),
   ("Repeat Medical", 72),
   ("Upload Contract to Tasheel (Tawjeeh is done)", 10000),
   ("Waiting for Personal Photo", 10000),
   ("Waiting for the maid to go to medical test(CC)", 72),
   ("Waiting for the maid to go to medical test(MV)", 72)]

/-- The initial value of `self.task_thresholds` (a copy of
`TASK_THRESHOLDS`, app.py line 89). -/
def defaultThresholds : Cfg := fun t => TASK_THRESHOLDS.lookup t

/-- Threshold resolution `self.task_thresholds.get(row[Task], 24)`:
dictionary lookup with default 24, where an absent task name (`NaN`
after forward fill) is not a key and also resolves to 24. -/
def resolveThreshold (cfg : Cfg) (task : Option String) : ℚ :=
  match task with
  | some t => (cfg t).getD 24
  | none => 24

/-- Core of `calculate_priority` (app.py lines 92-104) once the delay
value and the resolved threshold are in hand: `High` when
`delay > threshold * 2`, `Medium` when `delay > threshold`, else `Low`.
An absent delay (the `float(...)` call raising, or `NaN` making both
comparisons false) lands in the catch-all `Low` branch; the function is
total, it never fails. -/
def priorityOf (delay : Option ℚ) (threshold : ℚ) : Priority :=
  match delay with
  | none => .Low
  | some d =>
    if d > threshold * 2 then .High
    else if d > threshold then .Medium
    else .Low

/-- `DelayedMaidsApp.calculate_priority` (app.py lines 92-104): resolve
the threshold from the task name with default 24, then classify. -/
def calculate_priority (cfg : Cfg) (task : Option String) (delay : Option ℚ) : Priority :=
  priorityOf delay (resolveThreshold cfg task)

/-- The `Is Delayed` computation (app.py lines 145-150, identically
lines 744-749): `delay > task_thresholds.get(task, 24)` when both the
delay and the task are present (`pd.notna`), else `False`. -/
def isDelayedOf (cfg : Cfg) (task : Option String) (delay : Option ℚ) : Bool :=
  match delay, task with
  | some d, some t => decide (d > resolveThreshold cfg (some t))
  | _, _ => false

/-- The `Threshold Hours` column value (app.py line 124 and line 742):
`df[Task].map(self.task_thresholds)`.  A task that is absent or is not
a key of the dictionary maps to `NaN`, i.e. `none` — the default 24 is
not applied here. -/
def thresholdFieldOf (cfg : Cfg) (task : Option String) : Option ℚ :=
  task.bind cfg

/-! ## Task forward fill

Source: the loop of `process_data` (app.py lines 112-121).  A cell is
blank when it is `NaN` (`pd.notna` false) or its stripped string is
empty; a non-blank cell updates `current_task` to its stripped value,
and every position emits the running `current_task`. -/

/-- One iteration of the forward-fill loop: the running `current_task`
after seeing one cell. -/
def fillStep (cur : Option String) (cell : Option String) : Option String :=
  match cell with
  | none => cur
  | some s => if (trimChars s.data).isEmpty then cur else some (strTrim s)

/-- The forward-fill loop of app.py lines 113-119, carrying
`current_task` and emitting one value per row. -/
def fillTasks : Option String → List (Option String) → List (Option String)
  | _, [] => []
  | cur, c :: cs =>
    let cur' := fillStep cur c
    cur' :: fillTasks cur' cs

/-- Normalization of the `Task` column: the loop started with
`current_task = None`. -/
def normalizeTasks (cells : List (Option String)) : List (Option String) :=
  fillTasks none cells

/-- Specification-side reading: the most recent non-blank value
(whitespace-trimmed) of a sequence of raw cells, `none` when every cell
is blank. -/
def lastNonBlankValue (cells : List (Option String)) : Option String :=
  cells.foldl fillStep none

/-! ## Rows and upload processing

Source: `process_data` (app.py lines 106-158).  A `Row` carries the
columns the rule engine reads or writes; `RawRow` is one line of the
uploaded table with unconverted cells, and `RawTable` pairs the rows
with the (unstripped) column-name list of the upload.
-/

/-- One processed tracking row (the columns of `self.current_data` that
the rule engine touches). -/
structure Row where
  task : Option String
  delay : Option ℚ
  thresholdField : Option ℚ
  isDelayed : Bool
  priority : Priority
  assignee : Option String
  nationality : Option String
  status : Option String
  htype : Option String
  notes : Option String
deriving DecidableEq, Repr

/-- One uploaded line with raw (string-or-`NaN`) cells. -/
structure RawRow where
  task : Option String
  delay : Option String
  nationality : Option String
  status : Option String
  htype : Option String
  assignee : Option String
  notes : Option String
deriving DecidableEq, Repr

/-- An uploaded table: its column-name list and its rows. -/
structure RawTable where
  cols : List String
  rows : List RawRow
deriving DecidableEq, Repr

/-- Construction of one processed row inside `process_data` (app.py
lines 124-152): the forward-filled task, the coerced delay, the mapped
threshold field, the default `Unassigned` / empty-notes columns when
the upload lacks them, and the derived `Is Delayed` / `Priority`. -/
def mkRow (cfg : Cfg) (cols : List String) (task : Option String) (raw : RawRow) : Row :=
  { task := task
    delay := toNumeric raw.delay
    thresholdField := thresholdFieldOf cfg task
    isDelayed := isDelayedOf cfg task (toNumeric raw.delay)
    priority := calculate_priority cfg task (toNumeric raw.delay)
    assignee := if "Assignee" ∈ cols then raw.assignee else some "Unassigned"
    nationality := raw.nationality
    status := raw.status
    htype := raw.htype
    notes := if "Notes" ∈ cols then raw.notes else some "" }

/-- `DelayedMaidsApp.process_data` (app.py lines 106-158).  Column names
are stripped first (line 110).  Accessing the `Task` column (line 116)
raises when it is missing, and the `Is Delayed` lambda (line 146)
raises when `Real Delay (hours)` is missing and at least one row
exists; the enclosing try/except then reports the error and delivers no
table, embedded as `Except.error`.  Otherwise every row is processed
independently of the other rows. -/
def process_data (cfg : Cfg) (t : RawTable) : Except String (List Row) :=
  if "Task" ∈ t.cols.map strTrim then
    if "Real Delay (hours)" ∈ t.cols.map strTrim ∨ t.rows = [] then
      Except.ok (List.zipWith (mkRow cfg (t.cols.map strTrim))
        (normalizeTasks (t.rows.map RawRow.task)) t.rows)
    else Except.error "KeyError: Real Delay (hours)"
  else Except.error "KeyError: Task"

/-! ## Threshold update

Source: the `update-thresholds-button` branch of `update_dashboard`
(app.py lines 735-749): dictionary writes for the valid pairs, then a
full recomputation of `Threshold Hours`, `Priority` and `Is Delayed`
for the loaded table.
-/

/-- The loop of app.py lines 736-739: each (task, value) pair with a
present value `> 0` overwrites the dictionary entry for its task; every
other pair is skipped without any error. -/
def applyThresholdPairs (pairs : List (String × Option ℚ)) (cfg : Cfg) : Cfg :=
  pairs.foldl
    (fun c p =>
      match p.2 with
      | some v => if 0 < v then (fun t => if t = p.1 then some v else c t) else c
      | none => c)
    cfg

/-- Characterization helper: the last value among the pairs for task
`t` that is present and `> 0`, scanning the pair list left to right
(later pairs win), `none` when no pair validly updates `t`. -/
def lastValidUpdate : List (String × Option ℚ) → String → Option ℚ
  | [], _ => none
  | p :: ps, t =>
    match lastValidUpdate ps t with
    | some v => some v
    | none =>
      match p.2 with
      | some v => if p.1 = t ∧ 0 < v then some v else none
      | none => none

/-- Recomputation of one row under a configuration (app.py lines
742-749): the threshold field from the task map, the priority from
`calculate_priority`, the delayed flag from the `Is Delayed` lambda;
all other columns are untouched. -/
def reclassifyRow (cfg : Cfg) (r : Row) : Row :=
  { r with
    thresholdField := thresholdFieldOf cfg r.task
    priority := calculate_priority cfg r.task r.delay
    isDelayed := isDelayedOf cfg r.task r.delay }

/-- The mutable state the threshold-update branch works on:
`self.task_thresholds` and `self.current_data`. -/
structure DashState where
  thresholds : Cfg
  rows : List Row

/-- The threshold-update operation (app.py lines 735-749): apply the
valid pairs to the dictionary, then recompute the derived columns of
every loaded row under the new configuration. -/
def update_thresholds (pairs : List (String × Option ℚ)) (st : DashState) : DashState :=
  { thresholds := applyThresholdPairs pairs st.thresholds
    rows := st.rows.map (reclassifyRow (applyThresholdPairs pairs st.thresholds)) }

/-- The raw (non-derived) columns of a row, used to state that an
operation leaves them untouched. -/
def rawFields (r : Row) :
    Option String × Option ℚ × Option String × Option String × Option String ×
      Option String × Option String :=
  (r.task, r.delay, r.assignee, r.nationality, r.status, r.htype, r.notes)

/-! ## Per-cell table edit

Source: `update_table_data` (app.py lines 830-870).  Only `Priority`
(and the timestamp) of the changed rows is rewritten, from the row's
stored delay and stored `Threshold Hours` field; `Is Delayed` is not
recomputed.
-/

/-- The priority recomputation of the edit path (app.py lines 853-864):
`float(...)` of the stored delay and of the stored threshold field,
then the two-threshold comparison; any conversion failure lands in the
catch-all `Low`. -/
def editPriority (delay threshold : Option ℚ) : Priority :=
  match delay, threshold with
  | some d, some t =>
    if d > t * 2 then .High
    else if d > t then .Medium
    else .Low
  | _, _ => .Low

/-- Rewrite of one changed row by the edit path: only `Priority`
changes (the timestamp column is not part of the embedding). -/
def editRowUpdate (r : Row) : Row :=
  { r with priority := editPriority r.delay r.thresholdField }

/-- `update_table_data` (app.py lines 830-870): empty table passes
through; with no previous snapshot every row counts as changed; else
exactly the rows that differ from the previous snapshot (positionally,
over the zip of the two lists) are rewritten, and rows beyond the
previous snapshot's length are left as they are. -/
def update_table_data (current previous : List Row) : List Row :=
  if current = [] then []
  else if previous = [] then current.map editRowUpdate
  else
    List.zipWith (fun c p => if c = p then c else editRowUpdate c) current previous
      ++ current.drop previous.length

/-! ## Filter and aggregate for display

Source: the display part of `update_dashboard` (app.py lines 770-816):
restrict to `Is Delayed` rows, apply the four membership filters (a
`None` or empty filter selection imposes no constraint), then compute
the three counts and the per-column value counts sorted ascending.
-/

/-- One membership filter: an empty selection (the falsy `None`/empty
list of the callback) imposes no constraint, otherwise the row's value
must be a present member of the selection (`Series.isin`; a `NaN`
value is never a member). -/
def memFilter (f : List String) (v : Option String) : Bool :=
  f.isEmpty ||
    match v with
    | some x => f.contains x
    | none => false

/-- The row subset shown by the dashboard (app.py lines 770-780). -/
def displayFilter (rows : List Row) (taskF natF statusF typeF : List String) : List Row :=
  rows.filter (fun r =>
    r.isDelayed && memFilter taskF r.task && memFilter natF r.nationality &&
      memFilter statusF r.status && memFilter typeF r.htype)

/-- The critical-cases predicate (app.py lines 784-786): stored delay
strictly above twice the stored threshold field, false when either is
absent (a `NaN` comparison is false). -/
def isCritical (r : Row) : Bool :=
  match r.delay, r.thresholdField with
  | some d, some t => decide (d > t * 2)
  | _, _ => false

/-- `value_counts` plus `sorted(counts.index)` of
`prepare_filter_options` (app.py lines 793-798): the distinct present
values in ascending order, each with its occurrence count. -/
def valueCounts (vals : List String) : List (String × Nat) :=
  (sortAsc vals.dedup).map (fun v => (v, vals.count v))

/-- The outputs of the display pipeline that the claims speak about:
the filtered table, the three counts, and the four filter-option
count lists. -/
structure DisplayOut where
  table : List Row
  totalDelayed : Nat
  criticalCases : Nat
  unassignedCases : Nat
  taskOpts : List (String × Nat)
  natOpts : List (String × Nat)
  statusOpts : List (String × Nat)
  typeOpts : List (String × Nat)
deriving DecidableEq, Repr

/-- The display part of `update_dashboard` (app.py lines 770-816). -/
def update_dashboard_display (rows : List Row) (taskF natF statusF typeF : List String) :
    DisplayOut :=
  { table := displayFilter rows taskF natF statusF typeF
    totalDelayed := (displayFilter rows taskF natF statusF typeF).length
    criticalCases := ((displayFilter rows taskF natF statusF typeF).filter isCritical).length
    unassignedCases := ((displayFilter rows taskF natF statusF typeF).filter
      (fun r => decide (r.assignee = some "Unassigned"))).length
    taskOpts := valueCounts ((displayFilter rows taskF natF statusF typeF).filterMap Row.task)
    natOpts :=
      valueCounts ((displayFilter rows taskF natF statusF typeF).filterMap Row.nationality)
    statusOpts :=
      valueCounts ((displayFilter rows taskF natF statusF typeF).filterMap Row.status)
    typeOpts := valueCounts ((displayFilter rows taskF natF statusF typeF).filterMap Row.htype) }

/-- Specification-side reading of one provided-or-absent filter: absent
(empty) means no constraint, else the value must be present and a
member of the selection. -/
def inFilterSpec (f : List String) (v : Option String) : Prop :=
  f = [] ∨ ∃ x, v = some x ∧ x ∈ f

/-- Specification-side reading of a per-column option list: distinct
keys, ascending order, and each (value, count) pair appears exactly for
the values occurring in the column, with their occurrence counts. -/
def countsSpec (opts : List (String × Nat)) (vals : List String) : Prop :=
  (opts.map Prod.fst).Nodup ∧
  List.Sorted (fun a b => strLe a b = true) (opts.map Prod.fst) ∧
  ∀ v n, (v, n) ∈ opts ↔ 0 < vals.count v ∧ n = vals.count v

/-! ## Concrete sample inputs used by witnesses and counterexamples -/

/-- A task name whose configured threshold is 24 hours. -/
def taskVisa : String := "Apply for entry Visa"

/-- A consistent row: delay 10, threshold 24, not delayed, Low. -/
def rowBefore : Row :=
  { task := some taskVisa, delay := some 10, thresholdField := some 24,
    isDelayed := false, priority := .Low, assignee := some "Unassigned",
    nationality := some "Filipina", status := some "Active", htype := some "CC",
    notes := some "" }

/-- The same row after a user edits the delay cell to 50. -/
def rowEdited : Row := { rowBefore with delay := some 50 }

/-- Sample threshold-update pairs: one valid update, one non-positive
value, one absent value. -/
def samplePairs : List (String × Option ℚ) :=
  [(taskVisa, some 30), ("Repeat Medical", some 0), ("Fill Information", none)]

/-- Sample dashboard state holding one row. -/
def sampleState : DashState := { thresholds := defaultThresholds, rows := [rowBefore] }

/-- The sample row after the sample threshold update. -/
def sampleReclassified : Row :=
  reclassifyRow (applyThresholdPairs samplePairs defaultThresholds) rowBefore

/-- An uploaded line with only the task and delay cells filled. -/
def sampleRawRow (taskCell delayCell : Option String) : RawRow :=
  { task := taskCell, delay := delayCell, nationality := none, status := none,
    htype := none, assignee := none, notes := none }

/-- A well-formed upload whose first row has an unparseable delay cell
and whose second row has delay 50. -/
def sampleUpload : RawTable :=
  { cols := ["Task", "Real Delay (hours)"],
    rows := [sampleRawRow (some "Fill Information") (some "abc"),
             sampleRawRow (some "Repeat Medical") (some "50")] }

/-- A structurally invalid upload: the `Task` column is missing. -/
def badUpload : RawTable :=
  { cols := ["Real Delay (hours)"],
    rows := [sampleRawRow (some "A") (some "1")] }

/-- An upload whose single row has a blank task cell and delay 50. -/
def absentTaskUpload : RawTable :=
  { cols := ["Task", "Real Delay (hours)"],
    rows := [sampleRawRow none (some "50")] }

/-- The processed row of `absentTaskUpload`. -/
def absentTaskRow : Row :=
  mkRow defaultThresholds (absentTaskUpload.cols.map strTrim) none
    (sampleRawRow none (some "50"))

/-- A delayed display row with the given task value. -/
def exRow (t : String) : Row :=
  { task := some t, delay := some 100, thresholdField := some 24, isDelayed := true,
    priority := .High, assignee := some "Unassigned", nationality := some "N",
    status := some "S", htype := some "T", notes := some "" }

/-- Three delayed rows with task values A, A, B. -/
def exRows : List Row := [exRow "A", exRow "A", exRow "B"]

/-! ## Order properties of the embedded string comparison -/

theorem charListLe_total (as bs : List Char) :
    charListLe as bs = true ∨ charListLe bs as = true := by
  induction as generalizing bs with
  | nil => left; rfl
  | cons a as ih =>
    cases bs with
    | nil => right; rfl
    | cons b bs =>
      simp only [charListLe]
      rcases Nat.lt_trichotomy a.toNat b.toNat with h | h | h
      · left; simp [h]
      · simp [h, Nat.lt_irrefl]; exact ih bs
      · right; simp [h, Nat.lt_asymm h]

theorem charListLe_trans (as bs cs : List Char) :
    charListLe as bs = true → charListLe bs cs = true → charListLe as cs = true := by
  induction as generalizing bs cs with
  | nil => intro _ _; rfl
  | cons a as ih =>
    cases bs with
    | nil => intro h; simp [charListLe] at h
    | cons b bs =>
      cases cs with
      | nil => intro _ h; simp [charListLe] at h
      | cons c cs =>
        intro h1 h2
        simp only [charListLe] at h1 h2 ⊢
        rcases Nat.lt_trichotomy a.toNat b.toNat with hab | hab | hab
        · rcases Nat.lt_trichotomy b.toNat c.toNat with hbc | hbc | hbc
          · simp [show a.toNat < c.toNat by omega]
          · simp [show a.toNat < c.toNat by omega]
          · rw [if_neg (by omega), if_pos (by omega)] at h2
            exact absurd h2 (by simp)
        · rw [if_neg (by omega), if_neg (by omega)] at h1
          rcases Nat.lt_trichotomy b.toNat c.toNat with hbc | hbc | hbc
          · simp [show a.toNat < c.toNat by omega]
          · rw [if_neg (by omega), if_neg (by omega)] at h2
            rw [if_neg (by omega), if_neg (by omega)]
            exact ih bs cs h1 h2
          · rw [if_neg (by omega), if_pos (by omega)] at h2
            exact absurd h2 (by simp)
        · rw [if_neg (by omega), if_pos (by omega)] at h1
          exact absurd h1 (by simp)

instance : IsTotal String (fun a b => strLe a b = true) :=
  ⟨fun a b => charListLe_total a.data b.data⟩

instance : IsTrans String (fun a b => strLe a b = true) :=
  ⟨fun a b c => charListLe_trans a.data b.data c.data⟩

/-! ## Characterization of `priorityOf` -/

theorem priorityOf_eq_high_iff (d : Option ℚ) (t : ℚ) :
    priorityOf d t = Priority.High ↔ ∃ x, d = some x ∧ t * 2 < x := by
  cases d with
  | none => simp [priorityOf]
  | some x =>
    simp only [priorityOf, Option.some.injEq]
    constructor
    · intro h
      refine ⟨x, rfl, ?_⟩
      by_contra hc
      rw [if_neg hc] at h
      by_cases h2 : x > t
      · rw [if_pos h2] at h; exact absurd h (by decide)
      · rw [if_neg h2] at h; exact absurd h (by decide)
    · rintro ⟨y, hy, hlt⟩
      cases hy
      rw [if_pos hlt]

theorem priorityOf_eq_medium_iff (d : Option ℚ) (t : ℚ) :
    priorityOf d t = Priority.Medium ↔ ∃ x, d = some x ∧ t < x ∧ x ≤ t * 2 := by
  cases d with
  | none => simp [priorityOf]
  | some x =>
    simp only [priorityOf, Option.some.injEq]
    constructor
    · intro h
      by_cases h1 : x > t * 2
      · rw [if_pos h1] at h; exact absurd h (by decide)
      · rw [if_neg h1] at h
        by_cases h2 : x > t
        · exact ⟨x, rfl, h2, le_of_not_lt h1⟩
        · rw [if_neg h2] at h; exact absurd h (by decide)
    · rintro ⟨y, hy, hgt, hle⟩
      cases hy
      rw [if_neg (not_lt_of_le hle), if_pos hgt]

theorem priorityOf_eq_low_iff (d : Option ℚ) (t : ℚ) :
    priorityOf d t = Priority.Low ↔
      ¬(∃ x, d = some x ∧ t * 2 < x) ∧ ¬(∃ x, d = some x ∧ t < x ∧ x ≤ t * 2) := by
  rw [← priorityOf_eq_high_iff, ← priorityOf_eq_medium_iff]
  cases h : priorityOf d t <;> simp [h]

/-! ## Forward-fill lemmas -/

theorem fillTasks_length (cells : List (Option String)) :
    ∀ cur, (fillTasks cur cells).length = cells.length := by
  induction cells with
  | nil => intro cur; rfl
  | cons c cs ih => intro cur; simp [fillTasks, ih]

theorem fillTasks_eq_map_range (cells : List (Option String)) :
    ∀ cur, fillTasks cur cells =
      (List.range cells.length).map (fun i => (cells.take (i + 1)).foldl fillStep cur) := by
  induction cells with
  | nil => intro cur; rfl
  | cons c cs ih =>
    intro cur
    show fillStep cur c :: fillTasks (fillStep cur c) cs = _
    rw [List.length_cons, List.range_succ_eq_map, List.map_cons, List.map_map]
    congr 1
    rw [ih (fillStep cur c)]
    apply List.map_congr_left
    intro i _
    rfl

/-! ## Claim C1 -/

/-- C1: for every row, the derived priority is High exactly when the
delay is present and exceeds twice the threshold, Medium exactly when
the delay is present and lies strictly above the threshold but at most
twice the threshold, and Low otherwise (in particular whenever the
delay is absent or unparseable); the classification is a total
function, and on the spec examples it yields Medium for (30, 24), High
for (50, 24) and Low for (10, 24). -/
theorem C1_priority_classification (d : Option ℚ) (t : ℚ) :
    (priorityOf d t = Priority.High ↔ ∃ x, d = some x ∧ t * 2 < x) ∧
    (priorityOf d t = Priority.Medium ↔ ∃ x, d = some x ∧ t < x ∧ x ≤ t * 2) ∧
    (priorityOf d t = Priority.Low ↔
      ¬(∃ x, d = some x ∧ t * 2 < x) ∧ ¬(∃ x, d = some x ∧ t < x ∧ x ≤ t * 2)) ∧
    priorityOf none t = Priority.Low ∧
    priorityOf (some 30) 24 = Priority.Medium ∧
    priorityOf (some 50) 24 = Priority.High ∧
    priorityOf (some 10) 24 = Priority.Low :=
  ⟨priorityOf_eq_high_iff d t, priorityOf_eq_medium_iff d t, priorityOf_eq_low_iff d t,
   rfl, by norm_num [priorityOf], by norm_num [priorityOf], by norm_num [priorityOf]⟩

/-- C1 witness: the theorem applied at the concrete spec examples. -/
theorem C1_priority_classification_witness :
    priorityOf (some 30) 24 = Priority.Medium ∧ priorityOf (some 50) 24 = Priority.High :=
  ⟨(C1_priority_classification (some 30) 24).2.2.2.2.1,
   (C1_priority_classification (some 50) 24).2.2.2.2.2.1⟩

/-! ## Claim C3 -/

/-- C3: forward-filling the task column preserves the length of the
sequence, and the value at every index i is the most recent non-blank
cell value (whitespace-trimmed) among the cells at indices 0..i —
so blanks inherit the nearest preceding non-blank value, leading
blanks stay blank, and non-blank cells keep their own trimmed value;
on the spec example the fill maps A,blank,blank,B,blank to
A,A,A,B,B. -/
theorem C3_forward_fill (cells : List (Option String)) :
    (normalizeTasks cells).length = cells.length ∧
    normalizeTasks cells =
      (List.range cells.length).map (fun i => lastNonBlankValue (cells.take (i + 1))) ∧
    normalizeTasks [some "A", some "", some "", some "B", some ""] =
      [some "A", some "A", some "A", some "B", some "B"] :=
  ⟨fillTasks_length cells none, fillTasks_eq_map_range cells none, by decide⟩

/-- C3 witness: the theorem applied at the concrete spec example. -/
theorem C3_forward_fill_witness :
    normalizeTasks [some "A", some "", some "", some "B", some ""] =
      [some "A", some "A", some "A", some "B", some "B"] :=
  (C3_forward_fill [some "A", some "", some "", some "B", some ""]).2.2

/-! ## Upload-processing lemmas -/

theorem exists_of_mem_zipWith {α β γ : Type _} {f : α → β → γ} :
    ∀ {as : List α} {bs : List β} {c : γ}, c ∈ List.zipWith f as bs → ∃ a b, c = f a b := by
  intro as
  induction as with
  | nil => intro bs c h; simp [List.zipWith] at h
  | cons a as ih =>
    intro bs c h
    cases bs with
    | nil => simp [List.zipWith] at h
    | cons b bs =>
      rw [List.zipWith_cons_cons] at h
      rcases List.mem_cons.mp h with h | h
      · exact ⟨a, b, h⟩
      · exact ih h

theorem process_data_ok_rows (cfg : Cfg) (t : RawTable) (rows : List Row)
    (h : process_data cfg t = Except.ok rows) :
    rows = List.zipWith (mkRow cfg (t.cols.map strTrim))
      (normalizeTasks (t.rows.map RawRow.task)) t.rows := by
  unfold process_data at h
  split_ifs at h
  cases h
  rfl

theorem process_data_rows_consistent (cfg : Cfg) (t : RawTable) (rows : List Row)
    (h : process_data cfg t = Except.ok rows) :
    ∀ r ∈ rows,
      r.priority = calculate_priority cfg r.task r.delay ∧
      r.isDelayed = isDelayedOf cfg r.task r.delay ∧
      r.thresholdField = thresholdFieldOf cfg r.task := by
  intro r hr
  rw [process_data_ok_rows cfg t rows h] at hr
  obtain ⟨a, b, rfl⟩ := exists_of_mem_zipWith hr
  exact ⟨rfl, rfl, rfl⟩

/-! ## Claim C2 -/

/-- C2 counterexample: the upload whose single row has a blank task
cell and delay 50 is processed into a row whose delay is present and
exceeds its resolved threshold 24, yet whose `Is Delayed` flag is
false — the code additionally requires the task to be present, so
`isDelayed` is not `(delay present AND delay > threshold)` as claimed. -/
theorem C2_isDelayed_counterexample :
    process_data defaultThresholds absentTaskUpload = Except.ok [absentTaskRow] ∧
    absentTaskRow.delay = some 50 ∧
    resolveThreshold defaultThresholds absentTaskRow.task = 24 ∧
    (24 : ℚ) < 50 ∧
    absentTaskRow.isDelayed = false :=
  ⟨rfl, by decide, rfl, by decide, rfl⟩

/-- C2 (amended): `isDelayed` is true exactly when the delay is present
AND the task is present AND the delay exceeds the threshold resolved
for that task (default 24); it is false whenever the delay is absent or
unparseable, and also whenever the task is absent; in particular
classify(delay := None, threshold := 24) yields `isDelayed` false and
priority Low. -/
theorem C2_isDelayed_amended (cfg : Cfg) (task : Option String) (delay : Option ℚ) :
    (isDelayedOf cfg task delay = true ↔
      ∃ d t, delay = some d ∧ task = some t ∧ resolveThreshold cfg (some t) < d) ∧
    (delay = none → isDelayedOf cfg task delay = false) ∧
    (task = none → isDelayedOf cfg task delay = false) ∧
    isDelayedOf cfg task none = false ∧
    priorityOf none 24 = Priority.Low := by
  refine ⟨?_, ?_, ?_, ?_, rfl⟩
  · cases delay with
    | none => simp [isDelayedOf]
    | some d =>
      cases task with
      | none => simp [isDelayedOf]
      | some t => simp [isDelayedOf]
  · rintro rfl; cases task <;> rfl
  · rintro rfl; cases delay <;> rfl
  · cases task <;> rfl

/-- C2 witness: the amended theorem applied at a concrete absent delay. -/
theorem C2_isDelayed_witness :
    isDelayedOf defaultThresholds (some taskVisa) none = false ∧
    priorityOf none 24 = Priority.Low :=
  ⟨(C2_isDelayed_amended defaultThresholds (some taskVisa) none).2.1 rfl,
   (C2_isDelayed_amended defaultThresholds (some taskVisa) none).2.2.2.2⟩

/-! ## Claim C5 -/

/-- C5 counterexample: for a task that is not a key of the threshold
configuration, the row's `Threshold Hours` field is absent (`NaN` from
`Series.map`), not the claimed default 24 — even though the same task
resolves to 24 inside the classification. -/
theorem C5_thresholdField_counterexample :
    thresholdFieldOf defaultThresholds (some "Unknown Task") = none ∧
    resolveThreshold defaultThresholds (some "Unknown Task") = 24 ∧
    thresholdFieldOf defaultThresholds (some "Unknown Task") ≠
      some (resolveThreshold defaultThresholds (some "Unknown Task")) :=
  ⟨by decide, by decide, by decide⟩

/-- C5 (amended): the row's `Threshold Hours` field is the raw mapping
lookup — the mapped value when the task is present and is a key of the
configuration, and absent when the task is absent or unknown; the
default 24 is applied only inside the `isDelayed`/`priority`
derivations (via `resolveThreshold`), not stored in the field.  Every
row produced by upload processing carries exactly this mapped field. -/
theorem C5_thresholdField_amended (cfg : Cfg) (t : String) :
    thresholdFieldOf cfg (some t) = cfg t ∧
    thresholdFieldOf cfg none = none ∧
    (cfg t = none → resolveThreshold cfg (some t) = 24) ∧
    (∀ h, cfg t = some h → resolveThreshold cfg (some t) = h) ∧
    (∀ (u : RawTable) (rows : List Row), process_data cfg u = Except.ok rows →
      ∀ r ∈ rows, r.thresholdField = thresholdFieldOf cfg r.task) := by
  refine ⟨rfl, rfl, ?_, ?_, ?_⟩
  · intro h; simp [resolveThreshold, h]
  · intro h hh; simp [resolveThreshold, hh]
  · intro u rows h r hr
    exact (process_data_rows_consistent cfg u rows h r hr).2.2

/-- C5 witness: the amended theorem applied at an unknown task and at
the concrete processed upload. -/
theorem C5_thresholdField_witness :
    resolveThreshold defaultThresholds (some "Unknown Task") = 24 ∧
    absentTaskRow.thresholdField = thresholdFieldOf defaultThresholds absentTaskRow.task :=
  ⟨(C5_thresholdField_amended defaultThresholds "Unknown Task").2.2.1 (by decide),
   (C5_thresholdField_amended defaultThresholds "Unknown Task").2.2.2.2 absentTaskUpload
     [absentTaskRow] rfl absentTaskRow (List.mem_singleton.mpr rfl)⟩

/-! ## Claim C10 -/

/-- C10: in every processed upload, a row whose task is absent after
normalization has `Is Delayed` false regardless of its delay, while its
priority is still classified against the default threshold 24; on the
concrete upload with a blank task cell and delay 50 the processed row
has priority High together with `Is Delayed` false. -/
theorem C10_absent_task (cfg : Cfg) (t : RawTable) (rows : List Row)
    (h : process_data cfg t = Except.ok rows) :
    (∀ r ∈ rows, r.task = none →
      r.isDelayed = false ∧ r.priority = priorityOf r.delay 24) ∧
    process_data defaultThresholds absentTaskUpload = Except.ok [absentTaskRow] ∧
    absentTaskRow.isDelayed = false ∧
    absentTaskRow.priority = Priority.High := by
  refine ⟨?_, rfl, rfl, ?_⟩
  · intro r hr htask
    have hc := process_data_rows_consistent cfg t rows h r hr
    constructor
    · rw [hc.2.1, htask]; cases r.delay <;> rfl
    · rw [hc.1, htask]; rfl
  · have h50 : toNumeric (some "50") = some 50 := by decide
    show calculate_priority defaultThresholds none (toNumeric (some "50")) = Priority.High
    rw [h50]
    show priorityOf (some 50) (resolveThreshold defaultThresholds none) = Priority.High
    norm_num [priorityOf, resolveThreshold]

/-- C10 witness: the theorem applied at the concrete blank-task upload. -/
theorem C10_absent_task_witness :
    absentTaskRow.isDelayed = false ∧
    absentTaskRow.priority = priorityOf absentTaskRow.delay 24 :=
  (C10_absent_task defaultThresholds absentTaskUpload [absentTaskRow] rfl).1 absentTaskRow
    (List.mem_singleton.mpr rfl) rfl

/-! ## Claim C9 -/

theorem zipWith_mkRow_map_delay (cfg : Cfg) (cols : List String) :
    ∀ (ts : List (Option String)) (rs : List RawRow), ts.length = rs.length →
      (List.zipWith (mkRow cfg cols) ts rs).map Row.delay =
        rs.map (fun raw => toNumeric raw.delay) := by
  intro ts
  induction ts with
  | nil =>
    intro rs h
    cases rs with
    | nil => rfl
    | cons b bs => simp at h
  | cons a as ih =>
    intro rs h
    cases rs with
    | nil => simp at h
    | cons b bs =>
      simp only [List.zipWith_cons_cons, List.map_cons]
      rw [ih bs (by simpa using h)]
      rfl

/-- C9: a structurally invalid upload (missing `Task` column) fails the
whole processing call with an error and no partial table, whereas on a
well-formed upload every row is processed and an unparseable numeric
cell only makes that row's own delay field absent — the other rows'
delays are still the conversions of their own cells; concretely, the
upload whose first row has delay cell "abc" and whose second has "50"
yields delays [absent, 50], and the upload without a `Task` column
yields the error. -/
theorem C9_failure_semantics :
    (∀ (cfg : Cfg) (t : RawTable), "Task" ∉ t.cols.map strTrim →
      process_data cfg t = Except.error "KeyError: Task") ∧
    (∀ (cfg : Cfg) (t : RawTable), "Task" ∈ t.cols.map strTrim →
      "Real Delay (hours)" ∈ t.cols.map strTrim →
      (process_data cfg t).toOption.map (fun rows => rows.map Row.delay) =
        some (t.rows.map (fun raw => toNumeric raw.delay))) ∧
    parseRat "abc" = none ∧
    parseRat "50" = some 50 ∧
    (process_data defaultThresholds sampleUpload).toOption.map
      (fun rows => rows.map Row.delay) = some [none, some 50] ∧
    process_data defaultThresholds badUpload = Except.error "KeyError: Task" := by
  refine ⟨?_, ?_, by decide, by decide, by decide, rfl⟩
  · intro cfg t hmem
    unfold process_data
    rw [if_neg hmem]
  · intro cfg t h1 h2
    have hlen : (normalizeTasks (t.rows.map RawRow.task)).length = t.rows.length := by
      rw [normalizeTasks, fillTasks_length, List.length_map]
    unfold process_data
    rw [if_pos h1, if_pos (Or.inl h2)]
    show some ((List.zipWith (mkRow cfg (t.cols.map strTrim))
      (normalizeTasks (t.rows.map RawRow.task)) t.rows).map Row.delay) = _
    rw [zipWith_mkRow_map_delay cfg (t.cols.map strTrim) _ t.rows hlen]

/-- C9 witness: the theorem applied at the two concrete uploads. -/
theorem C9_failure_semantics_witness :
    process_data defaultThresholds badUpload = Except.error "KeyError: Task" ∧
    (process_data defaultThresholds sampleUpload).toOption.map
      (fun rows => rows.map Row.delay) =
      some (sampleUpload.rows.map (fun raw => toNumeric raw.delay)) :=
  ⟨C9_failure_semantics.1 defaultThresholds badUpload (by decide),
   C9_failure_semantics.2.1 defaultThresholds sampleUpload (by decide) (by decide)⟩

/-! ## Threshold-update lemmas -/

theorem applyThresholdPairs_apply (pairs : List (String × Option ℚ)) :
    ∀ (cfg : Cfg) (t : String),
      applyThresholdPairs pairs cfg t =
        match lastValidUpdate pairs t with
        | some v => some v
        | none => cfg t := by
  induction pairs with
  | nil => intro cfg t; rfl
  | cons p ps ih =>
    intro cfg t
    show applyThresholdPairs ps _ t = _
    rw [ih]
    cases hps : lastValidUpdate ps t with
    | some v => simp [lastValidUpdate, hps]
    | none =>
      simp only [lastValidUpdate, hps]
      cases hp2 : p.2 with
      | none => rfl
      | some v =>
        by_cases h0 : 0 < v
        · by_cases ht : p.1 = t
          · simp [h0, ht]
          · simp [h0, ht, Ne.symm ht]
        · simp [h0]

theorem applyThresholdPairs_idem (pairs : List (String × Option ℚ)) (cfg : Cfg) :
    applyThresholdPairs pairs (applyThresholdPairs pairs cfg) =
      applyThresholdPairs pairs cfg := by
  funext t
  rw [applyThresholdPairs_apply, applyThresholdPairs_apply]
  cases h : lastValidUpdate pairs t <;> simp [h]

theorem update_thresholds_rows_consistent (pairs : List (String × Option ℚ)) (st : DashState) :
    ∀ r ∈ (update_thresholds pairs st).rows,
      r.thresholdField = thresholdFieldOf (update_thresholds pairs st).thresholds r.task ∧
      r.isDelayed = isDelayedOf (update_thresholds pairs st).thresholds r.task r.delay ∧
      r.priority = calculate_priority (update_thresholds pairs st).thresholds r.task r.delay := by
  intro r hr
  obtain ⟨s, _, rfl⟩ := List.mem_map.mp hr
  exact ⟨rfl, rfl, rfl⟩

theorem update_thresholds_raw (pairs : List (String × Option ℚ)) (st : DashState) :
    (update_thresholds pairs st).rows.map rawFields = st.rows.map rawFields := by
  show (st.rows.map _).map rawFields = _
  rw [List.map_map]
  apply List.map_congr_left
  intro r _
  rfl

/-! ## Claim C6 -/

/-- C6: the threshold-update operation overwrites exactly the
configuration entries whose pair carries a present value strictly
greater than 0 (the last such pair for a task wins, all other pairs are
ignored without any error), and afterwards every loaded row's threshold
field, delayed flag and priority are the derivations under the new
configuration while its raw columns are untouched. -/
theorem C6_threshold_update (pairs : List (String × Option ℚ)) (st : DashState) :
    (∀ t, (update_thresholds pairs st).thresholds t =
      match lastValidUpdate pairs t with
      | some v => some v
      | none => st.thresholds t) ∧
    (update_thresholds pairs st).rows.length = st.rows.length ∧
    (update_thresholds pairs st).rows.map rawFields = st.rows.map rawFields ∧
    (∀ r ∈ (update_thresholds pairs st).rows,
      r.thresholdField = thresholdFieldOf (update_thresholds pairs st).thresholds r.task ∧
      r.isDelayed = isDelayedOf (update_thresholds pairs st).thresholds r.task r.delay ∧
      r.priority =
        calculate_priority (update_thresholds pairs st).thresholds r.task r.delay) := by
  refine ⟨?_, ?_, update_thresholds_raw pairs st, update_thresholds_rows_consistent pairs st⟩
  · intro t
    exact applyThresholdPairs_apply pairs st.thresholds t
  · show (st.rows.map _).length = _
    rw [List.length_map]

/-- C6 witness: the theorem applied at the sample pairs (one valid
update, one zero value, one absent value) over the sample state. -/
theorem C6_threshold_update_witness :
    (update_thresholds samplePairs sampleState).thresholds taskVisa = some 30 ∧
    (update_thresholds samplePairs sampleState).thresholds "Repeat Medical" =
      defaultThresholds "Repeat Medical" ∧
    sampleReclassified.isDelayed =
      isDelayedOf (update_thresholds samplePairs sampleState).thresholds
        sampleReclassified.task sampleReclassified.delay := by
  refine ⟨?_, ?_, ?_⟩
  · rw [(C6_threshold_update samplePairs sampleState).1 taskVisa]
    decide
  · rw [(C6_threshold_update samplePairs sampleState).1 "Repeat Medical"]
    decide
  · exact ((C6_threshold_update samplePairs sampleState).2.2.2 sampleReclassified
      (List.mem_singleton.mpr rfl)).2.1

/-! ## Claim C7 -/

/-- C7: applying the same threshold update twice in succession yields
exactly the state of applying it once (configuration and rows alike),
and after the update every row's delayed flag and priority are the
derivations under the new thresholds. -/
theorem C7_threshold_update_idempotent (pairs : List (String × Option ℚ)) (st : DashState) :
    update_thresholds pairs (update_thresholds pairs st) = update_thresholds pairs st ∧
    ∀ r ∈ (update_thresholds pairs st).rows,
      r.isDelayed = isDelayedOf (update_thresholds pairs st).thresholds r.task r.delay ∧
      r.priority =
        calculate_priority (update_thresholds pairs st).thresholds r.task r.delay := by
  constructor
  · have hcfg : applyThresholdPairs pairs (applyThresholdPairs pairs st.thresholds) =
        applyThresholdPairs pairs st.thresholds := applyThresholdPairs_idem pairs st.thresholds
    simp only [update_thresholds, hcfg, List.map_map]
    congr 1
  · intro r hr
    exact ⟨(update_thresholds_rows_consistent pairs st r hr).2.1,
      (update_thresholds_rows_consistent pairs st r hr).2.2⟩

/-- C7 witness: the theorem applied at the sample pairs and state. -/
theorem C7_threshold_update_witness :
    update_thresholds samplePairs (update_thresholds samplePairs sampleState) =
      update_thresholds samplePairs sampleState ∧
    sampleReclassified.priority =
      calculate_priority (update_thresholds samplePairs sampleState).thresholds
        sampleReclassified.task sampleReclassified.delay :=
  ⟨(C7_threshold_update_idempotent samplePairs sampleState).1,
   ((C7_threshold_update_idempotent samplePairs sampleState).2 sampleReclassified
     (List.mem_singleton.mpr rfl)).2⟩

/-! ## Per-cell edit lemmas -/

theorem update_table_data_zip_map {α : Type _} (g : Row → α)
    (hg : ∀ r, g (editRowUpdate r) = g r) :
    ∀ (c p : List Row),
      ((List.zipWith (fun x y => if x = y then x else editRowUpdate x) c p) ++
        c.drop p.length).map g = c.map g := by
  intro c
  induction c with
  | nil => intro p; cases p <;> rfl
  | cons x xs ih =>
    intro p
    cases p with
    | nil => simp
    | cons y ys =>
      simp only [List.zipWith_cons_cons, List.length_cons, List.drop_succ_cons,
        List.cons_append, List.map_cons]
      rw [ih ys]
      congr 1
      by_cases h : x = y
      · rw [if_pos h]
      · rw [if_neg h]; exact hg x

theorem update_table_data_map {α : Type _} (g : Row → α)
    (hg : ∀ r, g (editRowUpdate r) = g r) (current previous : List Row) :
    (update_table_data current previous).map g = current.map g := by
  unfold update_table_data
  split_ifs with h1 h2
  · rw [h1]
  · rw [List.map_map]
    apply List.map_congr_left
    intro r _
    exact hg r
  · exact update_table_data_zip_map g hg current previous

theorem mem_zip_edit :
    ∀ (c p : List Row) (r : Row),
      r ∈ List.zipWith (fun x y => if x = y then x else editRowUpdate x) c p →
      ∃ x ∈ c, r = x ∨ r = editRowUpdate x := by
  intro c
  induction c with
  | nil => intro p r h; simp [List.zipWith] at h
  | cons x xs ih =>
    intro p r h
    cases p with
    | nil => simp [List.zipWith] at h
    | cons y ys =>
      rw [List.zipWith_cons_cons] at h
      rcases List.mem_cons.mp h with h | h
      · refine ⟨x, List.mem_cons_self x xs, ?_⟩
        by_cases hxy : x = y
        · rw [if_pos hxy] at h; exact Or.inl h
        · rw [if_neg hxy] at h; exact Or.inr h
      · obtain ⟨z, hz, hor⟩ := ih ys r h
        exact ⟨z, List.mem_cons_of_mem x hz, hor⟩

theorem update_table_data_mem (current previous : List Row) (r : Row)
    (hr : r ∈ update_table_data current previous) :
    r ∈ current ∨ ∃ c ∈ current, r = editRowUpdate c := by
  unfold update_table_data at hr
  split_ifs at hr with h1 h2
  · simp at hr
  · obtain ⟨c, hc, rfl⟩ := List.mem_map.mp hr
    exact Or.inr ⟨c, hc, rfl⟩
  · rcases List.mem_append.mp hr with h | h
    · obtain ⟨x, hx, hor⟩ := mem_zip_edit current previous r h
      rcases hor with rfl | rfl
      · exact Or.inl hx
      · exact Or.inr ⟨x, hx, rfl⟩
    · exact Or.inl (List.mem_of_mem_drop h)

/-! ## Claim C4 -/

/-- C4 counterexample: editing the delay cell of a non-delayed row from
10 to 50 (threshold 24) makes the edit path re-derive the priority to
High, but leaves the stored `Is Delayed` flag false even though the
classification of the current values says true — so after a per-cell
edit the derived fields are not both re-derived as claimed. -/
theorem C4_rederive_counterexample :
    update_table_data [rowEdited] [rowBefore] = [editRowUpdate rowEdited] ∧
    (editRowUpdate rowEdited).priority = Priority.High ∧
    (editRowUpdate rowEdited).isDelayed = false ∧
    isDelayedOf defaultThresholds rowEdited.task rowEdited.delay = true := by
  refine ⟨?_, ?_, rfl, by decide⟩
  · unfold update_table_data
    rw [if_neg (by decide), if_neg (by decide)]
    show (if rowEdited = rowBefore then rowEdited else editRowUpdate rowEdited) ::
      ([] ++ List.drop 1 [rowEdited]) = _
    rw [if_neg (by decide)]
    rfl
  · show editPriority rowEdited.delay rowEdited.thresholdField = Priority.High
    have hd : rowEdited.delay = some 50 := rfl
    have ht : rowEdited.thresholdField = some 24 := rfl
    rw [hd, ht]
    norm_num [editPriority]

/-- C4 (amended): on upload and on a threshold-configuration update,
both priority and `Is Delayed` of every loaded row are re-derived from
the row's current delay, task and the (new) configuration.  On a
per-cell edit, however, only the priority of changed rows is
re-derived — from the row's stored delay and stored threshold field —
while no row's `Is Delayed` flag (or delay, or threshold field) is
recomputed: it keeps its previous value. -/
theorem C4_rederivation_amended :
    (∀ (cfg : Cfg) (u : RawTable) (rows : List Row), process_data cfg u = Except.ok rows →
      ∀ r ∈ rows,
        r.priority = calculate_priority cfg r.task r.delay ∧
        r.isDelayed = isDelayedOf cfg r.task r.delay) ∧
    (∀ (pairs : List (String × Option ℚ)) (st : DashState),
      ∀ r ∈ (update_thresholds pairs st).rows,
        r.priority =
          calculate_priority (update_thresholds pairs st).thresholds r.task r.delay ∧
        r.isDelayed = isDelayedOf (update_thresholds pairs st).thresholds r.task r.delay) ∧
    (∀ current previous : List Row,
      (update_table_data current previous).map Row.isDelayed = current.map Row.isDelayed ∧
      (update_table_data current previous).map Row.delay = current.map Row.delay ∧
      (update_table_data current previous).map Row.thresholdField =
        current.map Row.thresholdField ∧
      ∀ r ∈ update_table_data current previous,
        r ∈ current ∨ ∃ c ∈ current, r = editRowUpdate c) := by
  refine ⟨?_, ?_, ?_⟩
  · intro cfg u rows h r hr
    exact ⟨(process_data_rows_consistent cfg u rows h r hr).1,
      (process_data_rows_consistent cfg u rows h r hr).2.1⟩
  · intro pairs st r hr
    exact ⟨(update_thresholds_rows_consistent pairs st r hr).2.2,
      (update_thresholds_rows_consistent pairs st r hr).2.1⟩
  · intro current previous
    exact ⟨update_table_data_map Row.isDelayed (fun r => rfl) current previous,
      update_table_data_map Row.delay (fun r => rfl) current previous,
      update_table_data_map Row.thresholdField (fun r => rfl) current previous,
      update_table_data_mem current previous⟩

/-- C4 witness: the amended theorem applied at the concrete edited
table and at the concrete processed upload. -/
theorem C4_rederivation_witness :
    (update_table_data [rowEdited] [rowBefore]).map Row.isDelayed =
      [rowEdited].map Row.isDelayed ∧
    absentTaskRow.priority =
      calculate_priority defaultThresholds absentTaskRow.task absentTaskRow.delay :=
  ⟨(C4_rederivation_amended.2.2 [rowEdited] [rowBefore]).1,
   (C4_rederivation_amended.1 defaultThresholds absentTaskUpload [absentTaskRow] rfl
     absentTaskRow (List.mem_singleton.mpr rfl)).1⟩

/-! ## Display-pipeline lemmas -/

theorem sortAsc_mem (l : List String) (v : String) : v ∈ sortAsc l ↔ v ∈ l :=
  (List.perm_insertionSort _ l).mem_iff

theorem sortAsc_nodup {l : List String} (h : l.Nodup) : (sortAsc l).Nodup :=
  ((List.perm_insertionSort _ l).nodup_iff).mpr h

theorem sortAsc_sorted (l : List String) :
    List.Sorted (fun a b => strLe a b = true) (sortAsc l) :=
  List.sorted_insertionSort _ l

theorem valueCounts_fst (vals : List String) :
    (valueCounts vals).map Prod.fst = sortAsc vals.dedup := by
  rw [valueCounts, List.map_map]
  have h : (Prod.fst ∘ fun v => (v, vals.count v)) = id := rfl
  rw [h, List.map_id]

theorem valueCounts_spec (vals : List String) : countsSpec (valueCounts vals) vals := by
  refine ⟨?_, ?_, ?_⟩
  · rw [valueCounts_fst]
    exact sortAsc_nodup (List.nodup_dedup vals)
  · rw [valueCounts_fst]
    exact sortAsc_sorted _
  · intro v n
    constructor
    · intro h
      obtain ⟨a, ha, hpair⟩ := List.mem_map.mp h
      cases hpair
      have hv : v ∈ vals := List.mem_dedup.mp ((sortAsc_mem _ v).mp ha)
      exact ⟨List.count_pos_iff.mpr hv, rfl⟩
    · rintro ⟨hpos, rfl⟩
      have hv : v ∈ vals := List.count_pos_iff.mp hpos
      exact List.mem_map.mpr ⟨v, (sortAsc_mem _ v).mpr (List.mem_dedup.mpr hv), rfl⟩

theorem memFilter_iff (f : List String) (v : Option String) :
    memFilter f v = true ↔ inFilterSpec f v := by
  cases v with
  | none => simp [memFilter, inFilterSpec, List.isEmpty_iff]
  | some x => simp [memFilter, inFilterSpec, List.isEmpty_iff]

theorem mem_displayFilter (rows : List Row) (tF nF sF yF : List String) (r : Row) :
    r ∈ displayFilter rows tF nF sF yF ↔
      r ∈ rows ∧ r.isDelayed = true ∧ inFilterSpec tF r.task ∧
        inFilterSpec nF r.nationality ∧ inFilterSpec sF r.status ∧
        inFilterSpec yF r.htype := by
  rw [displayFilter, List.mem_filter]
  simp [memFilter_iff, and_assoc]

/-! ## Claim C8 -/

/-- C8: for every loaded row set and every combination of the four
optional membership filters (an empty selection imposes no
constraint), the display output is exactly the delayed rows matching
all provided filters; the total count is the size of that subset; the
critical count is the number of its rows whose present delay exceeds
twice their present threshold field; the unassigned count is the number
of its rows assigned "Unassigned"; and for each of the four filterable
columns the option list holds exactly the distinct present values of
the subset with their occurrence counts, with distinct keys sorted
ascending — on rows with task values A, A, B and no filters the task
options are [(A, 2), (B, 1)]. -/
theorem C8_display (rows : List Row) (tF nF sF yF : List String) :
    (∀ r, r ∈ (update_dashboard_display rows tF nF sF yF).table ↔
      r ∈ rows ∧ r.isDelayed = true ∧ inFilterSpec tF r.task ∧
        inFilterSpec nF r.nationality ∧ inFilterSpec sF r.status ∧
        inFilterSpec yF r.htype) ∧
    (update_dashboard_display rows tF nF sF yF).totalDelayed =
      (update_dashboard_display rows tF nF sF yF).table.length ∧
    (update_dashboard_display rows tF nF sF yF).criticalCases =
      (update_dashboard_display rows tF nF sF yF).table.countP
        (fun r =>
          match r.delay, r.thresholdField with
          | some d, some t => decide (t * 2 < d)
          | _, _ => false) ∧
    (update_dashboard_display rows tF nF sF yF).unassignedCases =
      (update_dashboard_display rows tF nF sF yF).table.countP
        (fun r => decide (r.assignee = some "Unassigned")) ∧
    countsSpec (update_dashboard_display rows tF nF sF yF).taskOpts
      ((update_dashboard_display rows tF nF sF yF).table.filterMap Row.task) ∧
    countsSpec (update_dashboard_display rows tF nF sF yF).natOpts
      ((update_dashboard_display rows tF nF sF yF).table.filterMap Row.nationality) ∧
    countsSpec (update_dashboard_display rows tF nF sF yF).statusOpts
      ((update_dashboard_display rows tF nF sF yF).table.filterMap Row.status) ∧
    countsSpec (update_dashboard_display rows tF nF sF yF).typeOpts
      ((update_dashboard_display rows tF nF sF yF).table.filterMap Row.htype) ∧
    (update_dashboard_display exRows [] [] [] []).taskOpts = [("A", 2), ("B", 1)] := by
  refine ⟨mem_displayFilter rows tF nF sF yF, rfl, ?_, ?_,
    valueCounts_spec _, valueCounts_spec _, valueCounts_spec _, valueCounts_spec _, by decide⟩
  · rw [List.countP_eq_length_filter]
    rfl
  · rw [List.countP_eq_length_filter]
    rfl

/-- C8 witness: the theorem applied at the concrete three-row table. -/
theorem C8_display_witness :
    (update_dashboard_display exRows [] [] [] []).taskOpts = [("A", 2), ("B", 1)] ∧
    (update_dashboard_display exRows [] [] [] []).totalDelayed =
      (update_dashboard_display exRows [] [] [] []).table.length :=
  ⟨(C8_display exRows [] [] [] []).2.2.2.2.2.2.2.2,
   (C8_display exRows [] [] [] []).2.1⟩

end DelayedMaids
